import Mathlib

/-!
Verification development for the shell-execution adapter of the repository:
a stdin/stdout line-delimited JSON-RPC server (file `shell_exec.py`).

The embedding translates the Python source directly:

* `Json` models the values produced by `json.loads` and consumed by
  `json.dumps` (numbers restricted to integers, which is all the server
  ever produces; floating point never occurs in any envelope it builds).
* `dumps` models `json.dumps` with its default settings: key order kept,
  separators `", "` and `": "`, and `ensure_ascii` escaping, under which a
  serialized value never contains a raw newline character.
* `Sys` packages the two external collaborators: `json.loads` as `decode`
  and `subprocess.run` (for a present, non-null command value) as `exec`.
* `Shell` carries the configured root directory; `Shell.dispatch`,
  `Shell.toolsCall` and `Shell.processLine` translate the body of
  `Shell.run`, with each Python `raise` that reaches the top-level
  `except` block turned into the `errResp` envelope built on line 49 of
  the source.  `Shell.run` translates the `while` loop: standard input is
  a finite list of lines, end of list being end-of-stream.
-/

inductive Json where
  | null : Json
  | bool : Bool → Json
  | num : Int → Json
  | str : String → Json
  | arr : List Json → Json
  | obj : List (String × Json) → Json

/-- Python `dict.get(k, d)`: the stored value when the key is present
(even when that value is JSON null), otherwise the default. -/
def getD (kvs : List (String × Json)) (k : String) (d : Json) : Json :=
  match kvs with
  | [] => d
  | (k2, v) :: rest => if k2 = k then v else getD rest k d

/-- Keys of an object envelope, in order; `[]` for non-objects. -/
def keysOf (j : Json) : List String :=
  match j with
  | Json.obj kvs => kvs.map Prod.fst
  | _ => []

/-- Decimal digit character, as Python writes numbers. -/
def digitCh (d : Nat) : Char := Char.ofNat (48 + d % 10)

/-- Decimal digits of a natural number, most significant first
(empty for zero). -/
def natDigits : Nat → List Char
  | 0 => []
  | n + 1 => natDigits ((n + 1) / 10) ++ [digitCh ((n + 1) % 10)]
decreasing_by exact Nat.div_lt_self (Nat.succ_pos n) (by omega)

/-- Python `str` of a natural number. -/
def natToStr (n : Nat) : String :=
  if n = 0 then "0" else String.mk (natDigits n)

/-- Python `str` of an integer, as produced by `f` strings and by
`json.dumps` for integers. -/
def intToStr (n : Int) : String :=
  if n < 0 then "-" ++ natToStr n.natAbs else natToStr n.toNat

/-- Lower-case hexadecimal digit character for a value below 16. -/
def hexDigitAux (k : Nat) : Char :=
  if k < 10 then Char.ofNat (48 + k) else Char.ofNat (87 + k)

/-- Lower-case hexadecimal digit of `n` modulo 16. -/
def hexDigit (n : Nat) : Char := hexDigitAux (n % 16)

/-- Four hexadecimal digits, as inside a `\u` escape. -/
def hex4 (n : Nat) : String :=
  String.mk [hexDigit (n / 4096), hexDigit (n / 256), hexDigit (n / 16), hexDigit n]

/-- Python `json.dumps` `\u` escape for a code point: one escape inside
the basic multilingual plane, a surrogate pair above it. -/
def uEscape (n : Nat) : String :=
  if n < 65536 then "\\u" ++ hex4 n
  else
    "\\u" ++ hex4 (55296 + (n - 65536) / 1024) ++ "\\u" ++ hex4 (56320 + (n - 65536) % 1024)

/-- Escape of one character inside a JSON string literal, following the
`ensure_ascii` table of `json.dumps`: the seven short escapes, `\u` for
every other character outside the printable ASCII range, and the
character itself inside that range. -/
def escChar (c : Char) : String :=
  if c = '"' then "\\\""
  else if c = '\\' then "\\\\"
  else if c = '\n' then "\\n"
  else if c = '\r' then "\\r"
  else if c = '\t' then "\\t"
  else if c = '\x08' then "\\b"
  else if c = '\x0c' then "\\f"
  else if c.toNat < 32 ∨ 126 < c.toNat then uEscape c.toNat
  else String.singleton c

/-- Escapes of a character list, concatenated. -/
def escStr : List Char → String
  | [] => ""
  | c :: cs => escChar c ++ escStr cs

/-- Python `json.dumps` of a string: quoted, with every character
escaped per `escChar`. -/
def dumpStr (s : String) : String := "\"" ++ escStr s.data ++ "\""

mutual

/-- Python `json.dumps` with its default settings (see `dumpsArr` and
`dumpsObj` for the element and field lists). -/
def dumps : Json → String
  | Json.null => "null"
  | Json.bool true => "true"
  | Json.bool false => "false"
  | Json.num n => intToStr n
  | Json.str s => dumpStr s
  | Json.arr xs => "[" ++ dumpsArr xs ++ "]"
  | Json.obj kvs => "\x7b" ++ dumpsObj kvs ++ "\x7d"

/-- Array elements joined by the default `", "` separator. -/
def dumpsArr : List Json → String
  | [] => ""
  | [x] => dumps x
  | x :: y :: rest => dumps x ++ ", " ++ dumpsArr (y :: rest)

/-- Object fields `key: value` joined by the default `", "` separator,
in stored order, as `json.dumps` keeps insertion order. -/
def dumpsObj : List (String × Json) → String
  | [] => ""
  | [(k, v)] => dumpStr k ++ ": " ++ dumps v
  | (k, v) :: f :: rest => dumpStr k ++ ": " ++ dumps v ++ ", " ++ dumpsObj (f :: rest)

end

example : dumps (Json.obj [("jsonrpc", Json.str "2.0"), ("id", Json.num 1)])
    = "\x7b\"jsonrpc\": \"2.0\", \"id\": 1\x7d" := by
  simp [dumps, dumpsObj, dumpStr, escStr, escChar, intToStr, natToStr, natDigits, digitCh]
  rfl

/-- Decimal digit characters are never the newline character. -/
theorem digitCh_ne_nl (d : Nat) : digitCh d ≠ '\n' := by
  have h : d % 10 < 10 := Nat.mod_lt _ (by omega)
  have aux : ∀ k, k < 10 → Char.ofNat (48 + k) ≠ '\n' := by decide
  exact aux _ h

/-- The digit list of a natural number never contains a newline. -/
theorem natDigits_no_nl (n : Nat) : '\n' ∉ natDigits n := by
  induction n using Nat.strong_induction_on with
  | _ n ih =>
    rcases n with _ | m
    · simp [natDigits]
    · rw [natDigits]
      intro h
      rcases List.mem_append.mp h with h1 | h1
      · exact ih _ (Nat.div_lt_self (Nat.succ_pos m) (by omega)) h1
      · simp only [List.mem_singleton] at h1
        exact digitCh_ne_nl _ h1.symm

/-- Rendered natural numbers never contain a newline. -/
theorem natToStr_no_nl (n : Nat) : '\n' ∉ (natToStr n).data := by
  unfold natToStr
  split
  · decide
  · exact natDigits_no_nl n

/-- Rendered integers never contain a newline. -/
theorem intToStr_no_nl (n : Int) : '\n' ∉ (intToStr n).data := by
  unfold intToStr
  split
  · rw [String.data_append]
    intro h
    rcases List.mem_append.mp h with h1 | h1
    · revert h1; decide
    · exact natToStr_no_nl _ h1
  · exact natToStr_no_nl _

/-- Hexadecimal digit characters are never the newline character. -/
theorem hexDigit_ne_nl (n : Nat) : hexDigit n ≠ '\n' := by
  have h : n % 16 < 16 := Nat.mod_lt _ (by omega)
  have aux : ∀ k, k < 16 → hexDigitAux k ≠ '\n' := by decide
  exact aux _ h

/-- Four-digit hexadecimal blocks never contain a newline. -/
theorem hex4_no_nl (n : Nat) : '\n' ∉ (hex4 n).data := by
  intro h
  simp only [hex4, List.mem_cons, List.not_mem_nil, or_false] at h
  rcases h with h | h | h | h
  all_goals exact hexDigit_ne_nl _ h.symm

/-- Unicode escapes never contain a newline. -/
theorem uEscape_no_nl (n : Nat) : '\n' ∉ (uEscape n).data := by
  unfold uEscape
  split
  · rw [String.data_append]
    intro h
    rcases List.mem_append.mp h with h1 | h1
    · revert h1; decide
    · exact hex4_no_nl _ h1
  · simp only [String.data_append]
    intro h
    rcases List.mem_append.mp h with h1 | h1
    · rcases List.mem_append.mp h1 with h2 | h2
      · rcases List.mem_append.mp h2 with h3 | h3
        · revert h3; decide
        · exact hex4_no_nl _ h3
      · revert h2; decide
    · exact hex4_no_nl _ h1

/-- The escape of any single character never contains a raw newline:
this is the heart of the one-envelope-per-line framing invariant. -/
theorem escChar_no_nl (c : Char) : '\n' ∉ (escChar c).data := by
  unfold escChar
  split
  · decide
  split
  · decide
  split
  · decide
  split
  · decide
  split
  · decide
  split
  · decide
  split
  · decide
  split
  · exact uEscape_no_nl _
  · rename_i h1 h2 h3 h4 h5 h6 h7 h8
    intro hm
    have hm2 : '\n' ∈ [c] := hm
    simp only [List.mem_singleton] at hm2
    exact h3 hm2.symm

/-- Escaped character lists never contain a newline. -/
theorem escStr_no_nl (cs : List Char) : '\n' ∉ (escStr cs).data := by
  induction cs with
  | nil => simp [escStr]
  | cons c cs ih =>
    rw [escStr, String.data_append]
    intro h
    rcases List.mem_append.mp h with h1 | h1
    · exact escChar_no_nl c h1
    · exact ih h1

/-- Serialized JSON strings never contain a raw newline. -/
theorem dumpStr_no_nl (s : String) : '\n' ∉ (dumpStr s).data := by
  unfold dumpStr
  simp only [String.data_append]
  intro h
  rcases List.mem_append.mp h with h1 | h1
  · rcases List.mem_append.mp h1 with h2 | h2
    · revert h2; decide
    · exact escStr_no_nl _ h2
  · revert h1; decide

/-- Rendered arrays contain no newline when no element rendering does. -/
theorem dumpsArr_no_nl_of : ∀ xs : List Json,
    (∀ x ∈ xs, '\n' ∉ (dumps x).data) → '\n' ∉ (dumpsArr xs).data
  | [] => by
    intro _
    simp only [dumpsArr]
    decide
  | [x] => by
    intro h
    simp only [dumpsArr]
    exact h x (List.mem_singleton_self x)
  | x :: y :: rest => by
    intro h
    simp only [dumpsArr, String.data_append]
    intro hm
    rcases List.mem_append.mp hm with h1 | h1
    · rcases List.mem_append.mp h1 with h2 | h2
      · exact h x (by simp) h2
      · revert h2; decide
    · exact dumpsArr_no_nl_of (y :: rest) (fun z hz => h z (List.mem_cons_of_mem x hz)) h1

/-- Rendered objects contain no newline when no value rendering does
(keys are rendered through `dumpStr`, which never emits one). -/
theorem dumpsObj_no_nl_of : ∀ kvs : List (String × Json),
    (∀ p ∈ kvs, '\n' ∉ (dumps p.2).data) → '\n' ∉ (dumpsObj kvs).data
  | [] => by
    intro _
    simp only [dumpsObj]
    decide
  | [(k, v)] => by
    intro h
    simp only [dumpsObj, String.data_append]
    intro hm
    rcases List.mem_append.mp hm with h1 | h1
    · rcases List.mem_append.mp h1 with h2 | h2
      · exact dumpStr_no_nl k h2
      · revert h2; decide
    · exact h (k, v) (List.mem_singleton_self _) h1
  | (k, v) :: f :: rest => by
    intro h
    simp only [dumpsObj, String.data_append]
    intro hm
    rcases List.mem_append.mp hm with h1 | h1
    · rcases List.mem_append.mp h1 with h2 | h2
      · rcases List.mem_append.mp h2 with h3 | h3
        · rcases List.mem_append.mp h3 with h4 | h4
          · exact dumpStr_no_nl k h4
          · revert h4; decide
        · exact h (k, v) (by simp) h3
      · revert h2; decide
    · exact dumpsObj_no_nl_of (f :: rest) (fun z hz => h z (List.mem_cons_of_mem _ hz)) h1

/-- Size-bounded form of the framing lemma: serialization of a JSON
value never contains a raw newline character. -/
theorem dumps_no_nl_bounded : ∀ N : Nat, ∀ j : Json, sizeOf j ≤ N → '\n' ∉ (dumps j).data := by
  intro N
  induction N with
  | zero =>
    intro j h
    exfalso
    cases j <;> simp at h
  | succ N ih =>
    intro j h
    cases j with
    | null => simp only [dumps]; decide
    | bool b => cases b <;> (simp only [dumps]; decide)
    | num n => simp only [dumps]; exact intToStr_no_nl n
    | str s => simp only [dumps]; exact dumpStr_no_nl s
    | arr xs =>
      simp only [dumps, String.data_append]
      have hxs : ∀ x ∈ xs, '\n' ∉ (dumps x).data := by
        intro x hx
        apply ih
        have h1 := List.sizeOf_lt_of_mem hx
        simp only [Json.arr.sizeOf_spec] at h
        omega
      intro hm
      rcases List.mem_append.mp hm with h1 | h1
      · rcases List.mem_append.mp h1 with h2 | h2
        · revert h2; decide
        · exact dumpsArr_no_nl_of xs hxs h2
      · revert h1; decide
    | obj kvs =>
      simp only [dumps, String.data_append]
      have hkvs : ∀ p ∈ kvs, '\n' ∉ (dumps p.2).data := by
        intro p hp
        apply ih
        have h1 := List.sizeOf_lt_of_mem hp
        rcases p with ⟨k, v⟩
        simp only [Json.obj.sizeOf_spec] at h
        simp only [Prod.mk.sizeOf_spec] at h1
        simp only
        omega
      intro hm
      rcases List.mem_append.mp hm with h1 | h1
      · rcases List.mem_append.mp h1 with h2 | h2
        · revert h2; decide
        · exact dumpsObj_no_nl_of kvs hkvs h2
      · revert h1; decide

/-- Serialization of a JSON value never contains a raw newline:
`json.dumps` escapes every newline inside strings, so each envelope
printed by the server occupies exactly one line of standard output. -/
theorem dumps_no_nl (j : Json) : '\n' ∉ (dumps j).data :=
  dumps_no_nl_bounded (sizeOf j) j (le_refl _)

/-- Split a character stream at newline characters: the list of lines,
with an empty final segment when the stream ends in a newline. -/
def splitNL : List Char → List (List Char)
  | [] => [[]]
  | c :: cs =>
    if c = '\n' then [] :: splitNL cs
    else
      match splitNL cs with
      | [] => [[c]]
      | s :: rest => (c :: s) :: rest

/-- Splitting never yields an empty list of segments. -/
theorem splitNL_ne_nil (cs : List Char) : splitNL cs ≠ [] := by
  cases cs with
  | nil => simp [splitNL]
  | cons c cs =>
    rw [splitNL]
    split
    · simp
    · split <;> simp

/-- Splitting a stream that starts with a newline-free segment followed
by a newline peels off exactly that segment. -/
theorem splitNL_append (s t : List Char) (h : '\n' ∉ s) :
    splitNL (s ++ '\n' :: t) = s :: splitNL t := by
  induction s with
  | nil => simp [splitNL]
  | cons c s ih =>
    have hc : c ≠ '\n' := fun hh => h (hh ▸ List.mem_cons_self c s)
    have hs : '\n' ∉ s := fun hh => h (List.mem_cons_of_mem c hh)
    rw [List.cons_append, splitNL, if_neg hc, ih hs]

/-- Outcome of one `subprocess.run` invocation, the closed tagged type
of the Process Runner: normal completion with exit code and captured
streams, expiry of the 300 second timeout, or a launch failure whose
message is the text of the raised exception. -/
inductive ExecOutcome where
  | completed : Int → String → String → ExecOutcome
  | timedOut : ExecOutcome
  | failed : String → ExecOutcome

/-- The two external collaborators of the server, as oracles: `decode`
is `json.loads` on one input line, returning the parsed value or the
message of the raised decoding error, and `exec` is
`subprocess.run(cmd, shell=True, capture_output=True, text=True,
cwd=cwd, timeout=300)` for a command value that is present and not
null, applied to the raw JSON values extracted for `command` and
`cwd`. -/
structure Sys where
  decode : String → Except String Json
  exec : Json → Json → ExecOutcome

/-- Message of the Python `TypeError` raised by `subprocess.run` when
the command value is `None` (key absent, or present with value null):
normalizing the argument list calls `list(None)`. -/
def noneCommandMsg : String := "\x27NoneType\x27 object is not iterable"

/-- Message of the Python `AttributeError` raised by calling `.get` on
a decoded value that is not an object, built from the Python type
name of the value. -/
def noAttrGetMsg (j : Json) : String :=
  let tyName :=
    match j with
    | Json.null => "NoneType"
    | Json.bool _ => "bool"
    | Json.num _ => "int"
    | Json.str _ => "str"
    | Json.arr _ => "list"
    | Json.obj _ => "dict"
  "\x27" ++ tyName ++ "\x27 object has no attribute \x27get\x27"

/-- Response to `initialize` (source line 20). -/
def initResp (rid : Json) : Json :=
  Json.obj [("jsonrpc", Json.str "2.0"), ("id", rid),
    ("result", Json.obj [
      ("protocolVersion", Json.str "2025-06-18"),
      ("capabilities", Json.obj [("tools", Json.obj [])]),
      ("serverInfo", Json.obj [("name", Json.str "shell-exec"),
        ("version", Json.str "1.0")])])]

/-- The static result of `tools/list` (source lines 23 to 25): exactly
one descriptor, the command-execution tool. -/
def toolsListResult : Json :=
  Json.obj [("tools", Json.arr [
    Json.obj [
      ("name", Json.str "execute_command"),
      ("description", Json.str "Execute shell command"),
      ("inputSchema", Json.obj [
        ("type", Json.str "object"),
        ("properties", Json.obj [
          ("command", Json.obj [("type", Json.str "string"),
            ("description", Json.str "Command to execute")]),
          ("cwd", Json.obj [("type", Json.str "string"),
            ("description", Json.str "Working directory")])]),
        ("required", Json.arr [Json.str "command"])])]])]

/-- Response to `tools/list`. -/
def toolsListResp (rid : Json) : Json :=
  Json.obj [("jsonrpc", Json.str "2.0"), ("id", rid), ("result", toolsListResult)]

/-- Rendered text of a completed command execution (source line 35). -/
def renderText (n : Int) (out err : String) : String :=
  "Exit Code: " ++ intToStr n ++ "\n\nSTDOUT:\n" ++ out ++ "\n\nSTDERR:\n" ++ err

/-- Response to `tools/call` (source line 41): a result envelope
wrapping the rendered text as a `tool_result` with one text content
item. -/
def toolCallResp (rid : Json) (text : String) : Json :=
  Json.obj [("jsonrpc", Json.str "2.0"), ("id", rid),
    ("result", Json.obj [("type", Json.str "tool_result"),
      ("content", Json.arr [Json.obj [("type", Json.str "text"),
        ("text", Json.str text)]])])]

/-- Method-not-found error envelope (source line 47). -/
def notFoundResp (rid : Json) : Json :=
  Json.obj [("jsonrpc", Json.str "2.0"), ("id", rid),
    ("error", Json.obj [("code", Json.num (-32601)),
      ("message", Json.str "Not found")])]

/-- Internal-error envelope (source line 49), sent whenever the body of
the loop raises; note it carries no `id` field at all. -/
def errResp (msg : String) : Json :=
  Json.obj [("jsonrpc", Json.str "2.0"),
    ("error", Json.obj [("code", Json.num (-32603)),
      ("message", Json.str msg)])]

/-- The server object: its only state is the configured root directory
(source line 6). -/
structure Shell where
  root : String

/-- Construction of the server from the process environment (source
line 6): `os.environ.get` with the hard-coded default root. -/
def Shell.ofEnv (env : String → Option String) : Shell :=
  ⟨(env "MCP_ROOT_DIR").getD "D:/source/digits"⟩

/-- Text produced by the Process Runner block (source lines 33 to 39):
a completed run renders exit code and both streams, `TimeoutExpired`
yields the fixed timeout text, and any other exception yields its
message prefixed by `Error: `.  A command value of `None` makes
`subprocess.run` itself raise `TypeError` inside the same `try`
block, so it lands in the generic `except` arm. -/
def execText (S : Sys) (cmd cwd : Json) : String :=
  match cmd with
  | Json.null => "Error: " ++ noneCommandMsg
  | c =>
    match S.exec c cwd with
    | ExecOutcome.completed n out err => renderText n out err
    | ExecOutcome.timedOut => "Error: Command timeout (5 minutes)"
    | ExecOutcome.failed m => "Error: " ++ m

/-- The `tools/call` branch (source lines 27 to 41).  The source reads
`params.get("name")` into a variable it never consults, so the tool
name plays no part in the outcome; a non-object `params` or
`arguments` makes `.get` raise `AttributeError`, which the top-level
handler turns into the internal-error envelope. -/
def Shell.toolsCall (sh : Shell) (S : Sys) (rid params : Json) : List Json :=
  match params with
  | Json.obj pkvs =>
    match getD pkvs "arguments" (Json.obj []) with
    | Json.obj akvs =>
      [toolCallResp rid
        (execText S (getD akvs "command" Json.null) (getD akvs "cwd" (Json.str sh.root)))]
    | a => [errResp (noAttrGetMsg a)]
  | p => [errResp (noAttrGetMsg p)]

/-- Fallthrough of the dispatch chain (source lines 43 to 47): silence
for a notification (`id` absent, or present with value null, both of
which `req.get` returns as `None`), otherwise the not-found error
envelope. -/
def notifOrNotFound (rid : Json) : List Json :=
  match rid with
  | Json.null => []
  | _ => [notFoundResp rid]

/-- Dispatch on one decoded request object (source lines 17 to 47):
the three recognized methods in order, then the notification check,
then the not-found envelope.  Only a value equal to the recognized
string can satisfy each comparison, exactly as Python equality on a
decoded value does. -/
def Shell.dispatch (sh : Shell) (S : Sys) (kvs : List (String × Json)) : List Json :=
  let rid := getD kvs "id" Json.null
  let params := getD kvs "params" (Json.obj [])
  match getD kvs "method" Json.null with
  | Json.str s =>
    if s = "initialize" then [initResp rid]
    else if s = "tools/list" then [toolsListResp rid]
    else if s = "tools/call" then sh.toolsCall S rid params
    else notifOrNotFound rid
  | _ => notifOrNotFound rid

/-- Processing of one input line (the body of the `while` loop, source
lines 13 to 49): decode, dispatch, and conversion of any exception
raised in the body into the internal-error envelope of line 49 — a
decode failure, or `AttributeError` from `.get` on a decoded value
that is not an object.  The value is the list of envelopes passed to
`send` for this line. -/
def Shell.processLine (sh : Shell) (S : Sys) (line : String) : List Json :=
  match S.decode line with
  | Except.error msg => [errResp msg]
  | Except.ok req =>
    match req with
    | Json.obj kvs => sh.dispatch S kvs
    | j => [errResp (noAttrGetMsg j)]

/-- The transport loop (source lines 12 to 15): `readline` yields the
next element of the input, the empty return at end-of-stream breaks
the loop, and control then falls out of `run`, so the process exits
cleanly with code 0.  The value is the sequence of envelopes sent, in
order. -/
def Shell.run (sh : Shell) (S : Sys) : List String → List Json
  | [] => []
  | line :: rest => sh.processLine S line ++ sh.run S rest

/-- Bytes `send` writes to standard output for one envelope (source
lines 8 and 9): `print(json.dumps(msg), flush=True)`, the
serialization followed by one newline character. -/
def Shell.send (msg : Json) : List Char := (dumps msg).data ++ ['\n']

/-- The entire standard-output byte stream of a session: the
concatenation of the `send` bytes of every envelope, `send` being the
only statement in the source that writes to that stream. -/
def Shell.stdoutBytes (sh : Shell) (S : Sys) (lines : List String) : List Char :=
  (sh.run S lines).flatMap Shell.send

/-- A concrete instance of the collaborators, used to exercise the
theorems on closed inputs: a small table of input lines and of command
behaviors. -/
def demoSys : Sys where
  decode := fun s =>
    if s = "LIST" then
      Except.ok (Json.obj [("jsonrpc", Json.str "2.0"), ("id", Json.num 1),
        ("method", Json.str "tools/list")])
    else if s = "NOID-LIST" then
      Except.ok (Json.obj [("method", Json.str "tools/list")])
    else if s = "INIT" then
      Except.ok (Json.obj [("id", Json.num 0), ("method", Json.str "initialize")])
    else if s = "CALL" then
      Except.ok (Json.obj [("id", Json.num 2), ("method", Json.str "tools/call"),
        ("params", Json.obj [("name", Json.str "execute_command"),
          ("arguments", Json.obj [("command", Json.str "echo hi")])])])
    else if s = "CALL-BOGUS" then
      Except.ok (Json.obj [("id", Json.num 3), ("method", Json.str "tools/call"),
        ("params", Json.obj [("name", Json.str "bogus_tool"),
          ("arguments", Json.obj [("command", Json.str "echo hi")])])])
    else if s = "CALL-SLEEP" then
      Except.ok (Json.obj [("id", Json.num 4), ("method", Json.str "tools/call"),
        ("params", Json.obj [("name", Json.str "execute_command"),
          ("arguments", Json.obj [("command", Json.str "sleep 400")])])])
    else if s = "CALL-NOCMD" then
      Except.ok (Json.obj [("id", Json.num 5), ("method", Json.str "tools/call"),
        ("params", Json.obj [("name", Json.str "execute_command"),
          ("arguments", Json.obj [])])])
    else Except.error "Expecting value: line 1 column 1 (char 0)"
  exec := fun c _ =>
    match c with
    | Json.str "echo hi" => ExecOutcome.completed 0 "hi\n" ""
    | Json.str "sleep 400" => ExecOutcome.timedOut
    | Json.str "false" => ExecOutcome.completed 1 "" ""
    | _ => ExecOutcome.failed "boom"

/-- The server as constructed with no environment override. -/
def demoShell : Shell := Shell.ofEnv (fun _ => none)

example : demoShell.processLine demoSys "LIST" = [toolsListResp (Json.num 1)] := rfl

example : demoShell.processLine demoSys "CALL"
    = [toolCallResp (Json.num 2) "Exit Code: 0\n\nSTDOUT:\nhi\n\n\nSTDERR:\n"] := rfl

example : demoShell.processLine demoSys "NOID-LIST" = [toolsListResp Json.null] := rfl

example : demoShell.processLine demoSys "CALL-SLEEP"
    = [toolCallResp (Json.num 4) "Error: Command timeout (5 minutes)"] := rfl

example : demoShell.processLine demoSys "CALL-NOCMD"
    = [toolCallResp (Json.num 5) ("Error: " ++ noneCommandMsg)] := rfl

example : demoShell.processLine demoSys "zzz"
    = [errResp "Expecting value: line 1 column 1 (char 0)"] := rfl

/-- A key that never occurs in the object makes `dict.get` return the
default. -/
theorem getD_eq_default (kvs : List (String × Json)) (k : String) (d : Json)
    (h : ∀ v, (k, v) ∉ kvs) : getD kvs k d = d := by
  induction kvs with
  | nil => rfl
  | cons p rest ih =>
    rcases p with ⟨k2, v⟩
    rw [getD]
    split
    · rename_i hk
      subst hk
      exact absurd (List.mem_cons_self _ _) (h v)
    · exact ih (fun v2 hv2 => h v2 (List.mem_cons_of_mem _ hv2))

/-- The `tools/call` branch always answers: whatever the parameter
shapes, exactly one envelope is sent. -/
theorem toolsCall_ne_nil (sh : Shell) (S : Sys) (rid params : Json) :
    sh.toolsCall S rid params ≠ [] := by
  unfold Shell.toolsCall
  split
  · split <;> simp
  · simp

/-- For a non-null command value, the Process Runner text is determined
by the outcome of `subprocess.run`. -/
theorem execText_of_exec (S : Sys) (c cwd : Json) (hc : c ≠ Json.null) :
    execText S c cwd
      = match S.exec c cwd with
        | ExecOutcome.completed n out err => renderText n out err
        | ExecOutcome.timedOut => "Error: Command timeout (5 minutes)"
        | ExecOutcome.failed m => "Error: " ++ m := by
  rcases c with _ | b | n | s | xs | kvs
  · exact absurd rfl hc
  all_goals rfl

/-- An `Error: ` text is never the rendering of a completed execution,
whose text always starts with `Exit Code: `. -/
theorem errorText_ne_render (m : String) (n : Int) (out err : String) :
    ("Error: " ++ m) ≠ renderText n out err := by
  intro h
  have h3 := congrArg (fun s => s.data.get? 1) h
  simp [renderText] at h3

/-- Splitting the concatenated `send` bytes of any envelope sequence at
newlines recovers exactly the serialization of each envelope, one per
line, plus the empty segment after the final newline. -/
theorem sendStream_lines (ms : List Json) :
    splitNL (ms.flatMap Shell.send) = ms.map (fun m => (dumps m).data) ++ [[]] := by
  induction ms with
  | nil => simp [splitNL]
  | cons m ms ih =>
    have hstep : (m :: ms).flatMap Shell.send
        = (dumps m).data ++ '\n' :: ms.flatMap Shell.send := by
      simp [Shell.send, List.flatMap_cons, List.append_assoc]
    rw [hstep, splitNL_append _ _ (dumps_no_nl m), ih]
    simp

/-- Claim C1: every byte the server writes to standard output belongs
to exactly one JSON-serialized response envelope followed by a newline.
Splitting the whole session byte stream at newline characters yields
precisely the serialization of each sent envelope, one envelope per
line, with only the empty tail segment after the final newline — so no
diagnostic, log or other text is ever interleaved on that stream, for
every input line sequence and every collaborator behavior. -/
theorem c1_one_envelope_per_line (sh : Shell) (S : Sys) (lines : List String) :
    splitNL (sh.stdoutBytes S lines)
      = (sh.run S lines).map (fun m => (dumps m).data) ++ [[]] := by
  unfold Shell.stdoutBytes
  exact sendStream_lines _

/-- Claim C2: an input line that is not valid JSON produces exactly one
internal-error envelope with code -32603 (the shape of `errResp`), and
the loop continues with the remaining lines; in particular a malformed
line followed by a valid `tools/list` request yields the error
envelope and then the correct `tools/list` response. -/
theorem c2_parse_error_isolated (sh : Shell) (S : Sys) (line line2 : String)
    (rest : List String) (msg : String) (kvs2 : List (String × Json))
    (h1 : S.decode line = Except.error msg)
    (h2 : S.decode line2 = Except.ok (Json.obj kvs2))
    (h3 : getD kvs2 "method" Json.null = Json.str "tools/list") :
    sh.run S (line :: rest) = errResp msg :: sh.run S rest
      ∧ sh.run S [line, line2]
        = [errResp msg, toolsListResp (getD kvs2 "id" Json.null)] := by
  constructor
  · simp [Shell.run, Shell.processLine, h1]
  · simp [Shell.run, Shell.processLine, h1, h2, Shell.dispatch, h3]

/-- Witness for claim C2: the concrete malformed line followed by the
concrete `tools/list` request is answered by the -32603 envelope and
the registry response. -/
theorem c2_witness :
    demoShell.run demoSys ["nonsense", "LIST"]
      = [errResp "Expecting value: line 1 column 1 (char 0)",
         toolsListResp (Json.num 1)] :=
  (c2_parse_error_isolated demoShell demoSys "nonsense" "LIST" ["LIST"]
    "Expecting value: line 1 column 1 (char 0)"
    [("jsonrpc", Json.str "2.0"), ("id", Json.num 1), ("method", Json.str "tools/list")]
    rfl rfl rfl).2

/-- Claim C3 counterexample: a `tools/list` request carrying no `id`
field at all is still answered — the server emits one response, whose
`id` member is null — refuting the claim that an absent `id` yields no
response for every method. -/
theorem c3_counterexample :
    demoShell.run demoSys ["NOID-LIST"] = [toolsListResp Json.null]
      ∧ demoShell.run demoSys ["NOID-LIST"] ≠ [] := by
  refine ⟨rfl, ?_⟩
  intro h
  have h2 : ([toolsListResp Json.null] : List Json) = [] := h
  exact List.cons_ne_nil _ _ h2

/-- Claim C3 amended: a request is treated as a pure notification (no
response) exactly when its `id` is absent or null AND its method is
none of the three recognized methods; `initialize`, `tools/list` and
`tools/call` are answered even without an `id`, the response then
carrying id null. -/
theorem c3_amended_notifications (sh : Shell) (S : Sys) (kvs : List (String × Json)) :
    sh.dispatch S kvs = []
      ↔ (getD kvs "id" Json.null = Json.null
          ∧ getD kvs "method" Json.null
              ∉ [Json.str "initialize", Json.str "tools/list", Json.str "tools/call"]) := by
  have hne := toolsCall_ne_nil sh S (getD kvs "id" Json.null) (getD kvs "params" (Json.obj []))
  unfold Shell.dispatch
  rcases hm : getD kvs "method" Json.null with _ | b | n | s | xs | okvs
  case str =>
    by_cases h1 : s = "initialize"
    · subst h1; simp
    · by_cases h2 : s = "tools/list"
      · subst h2; simp
      · by_cases h3 : s = "tools/call"
        · subst h3; simp [hne]
        · simp only [if_neg h1, if_neg h2, if_neg h3]
          unfold notifOrNotFound
          rcases hr : getD kvs "id" Json.null with _ | b2 | n2 | s2 | xs2 | okvs2 <;>
            simp [h1, h2, h3]
  all_goals
    unfold notifOrNotFound
    rcases hr : getD kvs "id" Json.null with _ | b2 | n2 | s2 | xs2 | okvs2 <;> simp

/-- Claim C4: a `tools/call` whose `arguments` object does not contain
the `command` key is answered — the loop does not crash and continues
with the rest of the input — by a single result envelope whose text is
an `Error: ` message (the text of the `TypeError` that
`subprocess.run` raises on a `None` command), and that text is never
the rendering of a completed execution, in particular never one
claiming exit code 0. -/
theorem c4_missing_command_is_error (sh : Shell) (S : Sys) (line : String)
    (rest : List String) (kvs pkvs akvs : List (String × Json))
    (h1 : S.decode line = Except.ok (Json.obj kvs))
    (h2 : getD kvs "method" Json.null = Json.str "tools/call")
    (h3 : getD kvs "params" (Json.obj []) = Json.obj pkvs)
    (h4 : getD pkvs "arguments" (Json.obj []) = Json.obj akvs)
    (h5 : ∀ v, ("command", v) ∉ akvs) :
    sh.run S (line :: rest)
      = toolCallResp (getD kvs "id" Json.null) ("Error: " ++ noneCommandMsg)
          :: sh.run S rest
      ∧ ∀ n out err, ("Error: " ++ noneCommandMsg) ≠ renderText n out err := by
  refine ⟨?_, fun n out err => errorText_ne_render noneCommandMsg n out err⟩
  have hcmd : getD akvs "command" Json.null = Json.null := getD_eq_default akvs _ _ h5
  simp [Shell.run, Shell.processLine, h1, Shell.dispatch, h2, h3,
    Shell.toolsCall, h4, hcmd, execText]

/-- Witness for claim C4: the concrete `tools/call` with empty
`arguments` is answered by the error text, the next request still
being served. -/
theorem c4_witness :
    demoShell.run demoSys ["CALL-NOCMD"]
      = [toolCallResp (Json.num 5) ("Error: " ++ noneCommandMsg)]
      ∧ ∀ n out err, ("Error: " ++ noneCommandMsg) ≠ renderText n out err :=
  c4_missing_command_is_error demoShell demoSys "CALL-NOCMD" [] _ _ _
    rfl rfl rfl rfl (fun v hv => by cases hv)

/-- Claim C5 counterexample: a `tools/call` naming the unregistered
tool `bogus_tool` is not answered with an unknown-tool error — the
server executes the command anyway and returns the ordinary execution
result envelope, which carries `result` (and no `error`) among its
keys. -/
theorem c5_counterexample :
    demoShell.run demoSys ["CALL-BOGUS"]
      = [toolCallResp (Json.num 3) "Exit Code: 0\n\nSTDOUT:\nhi\n\n\nSTDERR:\n"]
      ∧ keysOf (toolCallResp (Json.num 3) "Exit Code: 0\n\nSTDOUT:\nhi\n\n\nSTDERR:\n")
        = ["jsonrpc", "id", "result"] :=
  ⟨rfl, rfl⟩

/-- Claim C5 amended: the server never validates the tool name — the
`tools/call` answer is a function of the `arguments` object alone, so
two requests whose `params` agree on `arguments` (however their `name`
fields differ, including any unknown name) are answered identically,
the command being executed as usual. -/
theorem c5_amended_name_ignored (sh : Shell) (S : Sys) (rid : Json)
    (pkvs pkvs2 : List (String × Json))
    (h : getD pkvs "arguments" (Json.obj []) = getD pkvs2 "arguments" (Json.obj [])) :
    sh.toolsCall S rid (Json.obj pkvs) = sh.toolsCall S rid (Json.obj pkvs2) := by
  simp only [Shell.toolsCall, h]

/-- Witness for the amended claim C5: the bogus-named call and the
properly named call with the same arguments produce the same
response. -/
theorem c5_witness :
    demoShell.toolsCall demoSys (Json.num 3)
        (Json.obj [("name", Json.str "bogus_tool"),
          ("arguments", Json.obj [("command", Json.str "echo hi")])])
      = demoShell.toolsCall demoSys (Json.num 3)
        (Json.obj [("name", Json.str "execute_command"),
          ("arguments", Json.obj [("command", Json.str "echo hi")])]) :=
  c5_amended_name_ignored demoShell demoSys (Json.num 3) _ _ rfl

/-- Claim C6 counterexample: when the command execution times out, the
result text the server returns is `Error: Command timeout (5 minutes)`
— the fixed message carries an `Error: ` prefix — so the text is not
exactly `Command timeout (5 minutes)` as the claim states. -/
theorem c6_counterexample :
    demoShell.run demoSys ["CALL-SLEEP"]
      = [toolCallResp (Json.num 4) "Error: Command timeout (5 minutes)"]
      ∧ "Error: Command timeout (5 minutes)" ≠ "Command timeout (5 minutes)" :=
  ⟨rfl, by decide⟩

/-- Claim C6 amended: for every `tools/call` whose command execution
exceeds the 300 second bound, the result text is exactly
`Error: Command timeout (5 minutes)` — the fixed timeout message
prefixed by `Error: `, carrying no partial stdout or stderr — and the
server remains responsive: the remaining input is processed as
usual. -/
theorem c6_amended_timeout_text (sh : Shell) (S : Sys) (line : String)
    (rest : List String) (kvs pkvs akvs : List (String × Json)) (c : Json)
    (h1 : S.decode line = Except.ok (Json.obj kvs))
    (h2 : getD kvs "method" Json.null = Json.str "tools/call")
    (h3 : getD kvs "params" (Json.obj []) = Json.obj pkvs)
    (h4 : getD pkvs "arguments" (Json.obj []) = Json.obj akvs)
    (h5 : getD akvs "command" Json.null = c) (h6 : c ≠ Json.null)
    (h7 : S.exec c (getD akvs "cwd" (Json.str sh.root)) = ExecOutcome.timedOut) :
    sh.run S (line :: rest)
      = toolCallResp (getD kvs "id" Json.null) "Error: Command timeout (5 minutes)"
          :: sh.run S rest := by
  have htext := execText_of_exec S c (getD akvs "cwd" (Json.str sh.root)) h6
  rw [h7] at htext
  simp [Shell.run, Shell.processLine, h1, Shell.dispatch, h2, h3,
    Shell.toolsCall, h4, h5, htext]

/-- Witness for the amended claim C6: the concrete timed-out call is
answered with the fixed prefixed text and the following `tools/list`
request is still served. -/
theorem c6_witness :
    demoShell.run demoSys ["CALL-SLEEP", "LIST"]
      = [toolCallResp (Json.num 4) "Error: Command timeout (5 minutes)",
         toolsListResp (Json.num 1)] :=
  c6_amended_timeout_text demoShell demoSys "CALL-SLEEP" ["LIST"] _ _ _
    (Json.str "sleep 400") rfl rfl rfl rfl rfl
    (fun h => Json.noConfusion h) rfl

/-- Claim C7: every `tools/call` whose command launches and completes
with any exit code `n` (zero or not) is answered by a result envelope
— never a protocol-level error — of exactly the shape
`jsonrpc, id, result(type: tool_result, content: [type: text, text])`
where the text is `Exit Code: n`, a blank line, `STDOUT:` with the
captured stdout, a blank line, and `STDERR:` with the captured stderr,
both streams passed through untruncated. -/
theorem c7_completed_result_envelope (sh : Shell) (S : Sys) (line : String)
    (rest : List String) (kvs pkvs akvs : List (String × Json)) (c : Json)
    (n : Int) (out err : String)
    (h1 : S.decode line = Except.ok (Json.obj kvs))
    (h2 : getD kvs "method" Json.null = Json.str "tools/call")
    (h3 : getD kvs "params" (Json.obj []) = Json.obj pkvs)
    (h4 : getD pkvs "arguments" (Json.obj []) = Json.obj akvs)
    (h5 : getD akvs "command" Json.null = c) (h6 : c ≠ Json.null)
    (h7 : S.exec c (getD akvs "cwd" (Json.str sh.root))
            = ExecOutcome.completed n out err) :
    sh.run S (line :: rest)
      = Json.obj [("jsonrpc", Json.str "2.0"), ("id", getD kvs "id" Json.null),
          ("result", Json.obj [("type", Json.str "tool_result"),
            ("content", Json.arr [Json.obj [("type", Json.str "text"),
              ("text", Json.str ("Exit Code: " ++ intToStr n ++ "\n\nSTDOUT:\n"
                ++ out ++ "\n\nSTDERR:\n" ++ err))]])])]
          :: sh.run S rest := by
  have htext := execText_of_exec S c (getD akvs "cwd" (Json.str sh.root)) h6
  rw [h7] at htext
  simp [Shell.run, Shell.processLine, h1, Shell.dispatch, h2, h3,
    Shell.toolsCall, h4, h5, htext, toolCallResp, renderText]

/-- Witness for claim C7: the concrete completed call (exit code 0,
stdout `hi` with newline, empty stderr) is answered by exactly that
envelope. -/
theorem c7_witness :
    demoShell.run demoSys ["CALL"]
      = [Json.obj [("jsonrpc", Json.str "2.0"), ("id", Json.num 2),
          ("result", Json.obj [("type", Json.str "tool_result"),
            ("content", Json.arr [Json.obj [("type", Json.str "text"),
              ("text", Json.str "Exit Code: 0\n\nSTDOUT:\nhi\n\n\nSTDERR:\n")]])])]] :=
  c7_completed_result_envelope demoShell demoSys "CALL" [] _ _ _
    (Json.str "echo hi") 0 "hi\n" "" rfl rfl rfl rfl rfl
    (fun h => Json.noConfusion h) rfl

/-- Claim C8: every request with method `tools/list` is answered with
the constant registry content: exactly one tool descriptor, named
`execute_command`, whose input schema declares the string parameters
`command` and `cwd` and requires exactly `command`.  The result member
is the same constant `toolsListResult` for every such request, so
repeated `tools/list` calls within one session return identical
content in the same stable order. -/
theorem c8_tools_list_registry (sh : Shell) (S : Sys) (kvs : List (String × Json))
    (h : getD kvs "method" Json.null = Json.str "tools/list") :
    sh.dispatch S kvs
      = [Json.obj [("jsonrpc", Json.str "2.0"), ("id", getD kvs "id" Json.null),
          ("result", toolsListResult)]]
      ∧ toolsListResult
        = Json.obj [("tools", Json.arr [
            Json.obj [
              ("name", Json.str "execute_command"),
              ("description", Json.str "Execute shell command"),
              ("inputSchema", Json.obj [
                ("type", Json.str "object"),
                ("properties", Json.obj [
                  ("command", Json.obj [("type", Json.str "string"),
                    ("description", Json.str "Command to execute")]),
                  ("cwd", Json.obj [("type", Json.str "string"),
                    ("description", Json.str "Working directory")])]),
                ("required", Json.arr [Json.str "command"])])]])] := by
  constructor
  · simp [Shell.dispatch, h, toolsListResp]
  · rfl

/-- Witness for claim C8: the concrete `tools/list` request receives
the registry response, and a repeat of it in one session receives it
again identically. -/
theorem c8_witness :
    demoShell.dispatch demoSys
        [("jsonrpc", Json.str "2.0"), ("id", Json.num 1),
          ("method", Json.str "tools/list")]
      = [Json.obj [("jsonrpc", Json.str "2.0"), ("id", Json.num 1),
          ("result", toolsListResult)]] :=
  (c8_tools_list_registry demoShell demoSys
    [("jsonrpc", Json.str "2.0"), ("id", Json.num 1),
      ("method", Json.str "tools/list")] rfl).1

/-- Claim C9: the transport loop is a total fold over the finite input
stream: it processes every line in order — even one whose handling
produced an error envelope — and returns exactly when the stream is
exhausted, which in the source is the clean fall-through of `run` and
a process exit with code 0; it never stops before end-of-stream, as
processing any prefix is always followed by processing the rest. -/
theorem c9_clean_eof_termination (sh : Shell) (S : Sys) (ls ms : List String) :
    sh.run S ls = ls.flatMap (sh.processLine S)
      ∧ sh.run S (ls ++ ms) = sh.run S ls ++ sh.run S ms := by
  constructor
  · induction ls with
    | nil => rfl
    | cons l t ih => simp [Shell.run, List.flatMap_cons, ih]
  · induction ls with
    | nil => rfl
    | cons l t ih => simp [Shell.run, ih]

/-- The `id` key is present in every `tools/call` result envelope. -/
theorem id_mem_keys_toolCallResp (rid : Json) (t : String) :
    "id" ∈ keysOf (toolCallResp rid t) := by
  simp [toolCallResp, keysOf]

/-- Every envelope of the notification fallthrough carries an `id`
key (it is the not-found envelope; a notification sends nothing). -/
theorem notifOrNotFound_envelope_shape (rid : Json) :
    ∀ e ∈ notifOrNotFound rid, "id" ∈ keysOf e := by
  intro e he
  unfold notifOrNotFound at he
  rcases rid with _ | b | n | s | xs | okvs
  · cases he
  all_goals
    simp only [List.mem_singleton] at he
    subst he
    simp [notFoundResp, keysOf]

/-- Every envelope the `tools/call` branch sends either is the id-less
internal-error envelope or carries an `id` key. -/
theorem toolsCall_envelope_shape (sh : Shell) (S : Sys) (rid params : Json) :
    ∀ e ∈ sh.toolsCall S rid params,
      (∃ msg, e = errResp msg) ∨ "id" ∈ keysOf e := by
  intro e he
  rcases params with _ | b | n | s | xs | pkvs <;>
    simp only [Shell.toolsCall] at he
  case obj =>
    rcases hargs : getD pkvs "arguments" (Json.obj []) with _ | b2 | n2 | s2 | xs2 | akvs <;>
      rw [hargs] at he <;> simp only [List.mem_singleton] at he <;> subst he
    case obj => exact Or.inr (id_mem_keys_toolCallResp _ _)
    all_goals exact Or.inl ⟨_, rfl⟩
  all_goals
    simp only [List.mem_singleton] at he
    subst he
    exact Or.inl ⟨_, rfl⟩

/-- Every envelope the dispatcher sends either is the id-less
internal-error envelope or carries an `id` key. -/
theorem dispatch_envelope_shape (sh : Shell) (S : Sys) (kvs : List (String × Json)) :
    ∀ e ∈ sh.dispatch S kvs,
      (∃ msg, e = errResp msg) ∨ "id" ∈ keysOf e := by
  intro e he
  unfold Shell.dispatch at he
  rcases hm : getD kvs "method" Json.null with _ | b | n | s | xs | okvs <;>
    rw [hm] at he <;> simp only [] at he
  case str =>
    by_cases h1 : s = "initialize"
    · subst h1
      simp at he
      subst he
      right
      simp [initResp, keysOf]
    · by_cases h2 : s = "tools/list"
      · subst h2
        simp at he
        subst he
        right
        simp [toolsListResp, keysOf]
      · by_cases h3 : s = "tools/call"
        · subst h3
          simp at he
          exact toolsCall_envelope_shape sh S _ _ e he
        · simp only [if_neg h1, if_neg h2, if_neg h3] at he
          exact Or.inr (notifOrNotFound_envelope_shape _ e he)
  all_goals exact Or.inr (notifOrNotFound_envelope_shape _ e he)

/-- Every envelope sent while processing one line either is the
id-less internal-error envelope or carries an `id` key. -/
theorem processLine_envelope_shape (sh : Shell) (S : Sys) (line : String) :
    ∀ e ∈ sh.processLine S line,
      (∃ msg, e = errResp msg) ∨ "id" ∈ keysOf e := by
  intro e he
  unfold Shell.processLine at he
  rcases hd : S.decode line with msg | req <;> rw [hd] at he
  · simp only [List.mem_singleton] at he
    subst he
    exact Or.inl ⟨_, rfl⟩
  · rcases req with _ | b | n | s | xs | kvs
    case obj => exact dispatch_envelope_shape sh S kvs e he
    all_goals
      simp only [List.mem_singleton] at he
      subst he
      exact Or.inl ⟨_, rfl⟩

/-- Every envelope of a whole session either is the id-less
internal-error envelope or carries an `id` key. -/
theorem run_envelope_shape (sh : Shell) (S : Sys) (ls : List String) :
    ∀ e ∈ sh.run S ls,
      (∃ msg, e = errResp msg) ∨ "id" ∈ keysOf e := by
  induction ls with
  | nil => intro e he; cases he
  | cons l t ih =>
    intro e he
    rw [Shell.run] at he
    rcases List.mem_append.mp he with h | h
    · exact processLine_envelope_shape sh S l e h
    · exact ih e h

/-- Claim C10: an envelope emitted through the top-level exception
handler (such as the one answering a malformed line) has exactly the
keys `jsonrpc` and `error` — no `id` member at all — while every other
response the server ever sends carries an `id` key. -/
theorem c10_error_envelope_has_no_id (sh : Shell) (S : Sys) (ls : List String)
    (e : Json) (he : e ∈ sh.run S ls) :
    ((∃ msg, e = errResp msg) ∧ keysOf e = ["jsonrpc", "error"]
        ∧ "id" ∉ keysOf e)
    ∨ "id" ∈ keysOf e := by
  rcases run_envelope_shape sh S ls e he with ⟨msg, rfl⟩ | h
  · left
    exact ⟨⟨msg, rfl⟩, rfl, by simp [errResp, keysOf]⟩
  · right
    exact h

/-- Witness for claim C10: the envelope answering the concrete
malformed line is the id-less internal-error envelope. -/
theorem c10_witness :
    ((∃ msg, errResp "Expecting value: line 1 column 1 (char 0)" = errResp msg)
        ∧ keysOf (errResp "Expecting value: line 1 column 1 (char 0)")
            = ["jsonrpc", "error"]
        ∧ "id" ∉ keysOf (errResp "Expecting value: line 1 column 1 (char 0)"))
    ∨ "id" ∈ keysOf (errResp "Expecting value: line 1 column 1 (char 0)") :=
  c10_error_envelope_has_no_id demoShell demoSys ["nonsense"] _
    (List.mem_singleton.mpr rfl)
